import Mathlib

/-!
Verification of the concurrency-and-notification subsystem of the
Health-app static server (src/server.py).

The development shallow-embeds, directly from the Python source:
  * the per-IP connection registry (`active_connections`, `last_activity`,
    guarded by `connection_lock`) and the `HealthAppHandler.handle`
    admission / release logic (src/server.py lines 1023-1057);
  * the idle reaper sweep `cleanup_inactive_connections`
    (src/server.py lines 1620-1644);
  * the SSE subscriber hub: `notify_sse_clients` (lines 1538-1556) and the
    streaming loop of `handle_sse_reload` (lines 1210-1259);
  * the filesystem watcher callbacks `FileChangeHandler.on_modified`,
    `on_created`, `on_deleted` (lines 1558-1613).

Python dicts are embedded as association lists over `String` keys, Python
sets of thread ids as `Finset Nat`, and timestamps as natural numbers
(seconds for registry activity, milliseconds for the debounce table).
-/

namespace HealthApp

/-! ### Association-list embedding of Python dicts -/

/-- First-occurrence lookup, the embedding of `d.get(k)` / `d[k]` reads. -/
def dget? {α : Type} : List (String × α) → String → Option α
  | [], _ => none
  | (k, v) :: rest, key => if k = key then some v else dget? rest key

/-- The embedding of `d[k] = v`: update the existing entry or append one. -/
def dset {α : Type} : List (String × α) → String → α → List (String × α)
  | [], key, v => [(key, v)]
  | (k, w) :: rest, key, v =>
      if k = key then (k, v) :: rest else (k, w) :: dset rest key v

/-- The embedding of `del d[k]` (removes every entry with this key). -/
def ddel {α : Type} : List (String × α) → String → List (String × α)
  | [], _ => []
  | (k, w) :: rest, key =>
      if k = key then ddel rest key else (k, w) :: ddel rest key

/-- A well-formed Python dict has pairwise distinct keys. -/
def NodupKeys {α : Type} (d : List (String × α)) : Prop :=
  (d.map Prod.fst).Nodup

instance {α : Type} (d : List (String × α)) : Decidable (NodupKeys d) := by
  unfold NodupKeys; infer_instance

theorem dget?_dset_self {α : Type} (d : List (String × α)) (k : String) (v : α) :
    dget? (dset d k v) k = some v := by
  induction d with
  | nil => simp [dset, dget?]
  | cons p rest ih =>
      obtain ⟨k', w⟩ := p
      by_cases h : k' = k
      · simp [dset, dget?, h]
      · simp [dset, dget?, h, ih]

theorem dget?_dset_ne {α : Type} (d : List (String × α)) (k k' : String) (v : α)
    (h : k ≠ k') : dget? (dset d k v) k' = dget? d k' := by
  induction d with
  | nil => simp [dset, dget?, h]
  | cons p rest ih =>
      obtain ⟨k₀, w⟩ := p
      by_cases h₀ : k₀ = k
      · subst h₀
        simp [dset, dget?, h, fun hc : k₀ = k' => h hc]
      · by_cases h₁ : k₀ = k'
        · subst h₁
          simp [dset, dget?, h₀]
        · simp [dset, dget?, h₀, h₁, ih]

theorem dget?_ddel_self {α : Type} (d : List (String × α)) (k : String) :
    dget? (ddel d k) k = none := by
  induction d with
  | nil => simp [ddel, dget?]
  | cons p rest ih =>
      obtain ⟨k₀, w⟩ := p
      by_cases h : k₀ = k
      · simp [ddel, h, ih]
      · simp [ddel, dget?, h, ih]

theorem dget?_ddel_ne {α : Type} (d : List (String × α)) (k k' : String)
    (h : k ≠ k') : dget? (ddel d k) k' = dget? d k' := by
  induction d with
  | nil => simp [ddel]
  | cons p rest ih =>
      obtain ⟨k₀, w⟩ := p
      by_cases h₀ : k₀ = k
      · subst h₀
        simp [ddel, dget?, h, ih]
      · simp [ddel, dget?, h₀, ih]

theorem mem_dset {α : Type} {d : List (String × α)} {k : String} {v : α}
    {q : String × α} (hq : q ∈ dset d k v) : q = (k, v) ∨ q ∈ d := by
  induction d with
  | nil => simpa [dset] using hq
  | cons p rest ih =>
      obtain ⟨k₀, w⟩ := p
      by_cases h : k₀ = k
      · subst h
        rcases (by simpa [dset] using hq : q = (k₀, v) ∨ q ∈ rest) with h₁ | h₁
        · exact Or.inl h₁
        · exact Or.inr (List.mem_cons_of_mem _ h₁)
      · rcases (by simpa [dset, h] using hq : q = (k₀, w) ∨ q ∈ dset rest k v) with h₁ | h₁
        · exact Or.inr (by simp [h₁])
        · rcases ih h₁ with h₂ | h₂
          · exact Or.inl h₂
          · exact Or.inr (List.mem_cons_of_mem _ h₂)

theorem mem_ddel {α : Type} {d : List (String × α)} {k : String}
    {q : String × α} (hq : q ∈ ddel d k) : q ∈ d := by
  induction d with
  | nil => simp [ddel] at hq
  | cons p rest ih =>
      obtain ⟨k₀, w⟩ := p
      by_cases h : k₀ = k
      · exact List.mem_cons_of_mem _ (ih (by simpa [ddel, h] using hq))
      · rcases (by simpa [ddel, h] using hq : q = (k₀, w) ∨ q ∈ ddel rest k) with h₁ | h₁
        · simp [h₁]
        · exact List.mem_cons_of_mem _ (ih h₁)

theorem dget?_some_mem {α : Type} {d : List (String × α)} {k : String} {v : α}
    (h : dget? d k = some v) : (k, v) ∈ d := by
  induction d with
  | nil => simp [dget?] at h
  | cons p rest ih =>
      obtain ⟨k₀, w⟩ := p
      by_cases h₀ : k₀ = k
      · subst h₀
        simp [dget?] at h
        simp [h]
      · exact List.mem_cons_of_mem _ (ih (by simpa [dget?, h₀] using h))

/-! ### The connection registry (src/server.py lines 263-269)

`active_connections` maps a source IP to the set of thread ids of its open
connections; `last_activity` maps a source IP to its most recent activity
timestamp.  Both are mutated only under `connection_lock`. -/

/-- src/server.py line 269: `MAX_CONNECTIONS_PER_IP = 50`. -/
def MAX_CONNECTIONS_PER_IP : ℕ := 50

/-- src/server.py line 267: `CONNECTION_TIMEOUT = 300`. -/
def CONNECTION_TIMEOUT : ℕ := 300

/-- src/server.py line 268: `CLEANUP_INTERVAL = 60`. -/
def CLEANUP_INTERVAL : ℕ := 60

/-- The two connection-tracking dicts of src/server.py lines 264-266. -/
structure Registry where
  active_connections : List (String × Finset ℕ)
  last_activity : List (String × ℕ)
deriving DecidableEq

/-- The admission prologue of `HealthAppHandler.handle`
(src/server.py lines 1029-1039), run under `connection_lock`:
read `active_connections.get(client_ip, set())`; if its size is already at
`MAX_CONNECTIONS_PER_IP`, reject (send a 503) leaving the registry
untouched; otherwise add the handling thread's id to the key's set and
record the current time in `last_activity`.  Returns the new registry and
`true` iff the connection was admitted. -/
def handle_admission (st : Registry) (client_ip : String) (thread_id now : ℕ) :
    Registry × Bool :=
  let ip_connections := (dget? st.active_connections client_ip).getD ∅
  if MAX_CONNECTIONS_PER_IP ≤ ip_connections.card then
    (st, false)
  else
    ({ active_connections :=
         dset st.active_connections client_ip (insert thread_id ip_connections),
       last_activity := dset st.last_activity client_ip now }, true)

/-- The `finally` block of `HealthAppHandler.handle`
(src/server.py lines 1050-1057): if the key is still tracked, discard the
thread id from its set and delete the key when the set becomes empty. -/
def handle_release (st : Registry) (client_ip : String) (thread_id : ℕ) :
    Registry :=
  match dget? st.active_connections client_ip with
  | none => st
  | some s =>
      let s' := s.erase thread_id
      if s' = ∅ then
        { st with active_connections := ddel st.active_connections client_ip }
      else
        { st with active_connections := dset st.active_connections client_ip s' }

/-- One iteration of the loop body inside the reaper's scan
(src/server.py lines 1630-1639): for a snapshot entry `(ip, last_time)`,
delete the key from both dicts when `now - last_time > CONNECTION_TIMEOUT`. -/
def cleanup_step (now : ℕ) (st : Registry) (entry : String × ℕ) : Registry :=
  if CONNECTION_TIMEOUT < now - entry.2 then
    { active_connections := ddel st.active_connections entry.1,
      last_activity := ddel st.last_activity entry.1 }
  else st

/-- One sweep of `cleanup_inactive_connections`
(src/server.py lines 1625-1642): iterate over a snapshot
`list(last_activity.items())` taken at the start of the sweep, deleting
every entry that has been inactive for more than `CONNECTION_TIMEOUT`. -/
def cleanup_inactive_connections (st : Registry) (now : ℕ) : Registry :=
  st.last_activity.foldl (cleanup_step now) st

/-! ### The admission scenario (spec section 8, src/server.py lines 1023-1057)

`run_attempts` plays a sequence of connection attempts from one source IP
against the registry, none of them releasing, and counts admissions and
rejections. -/

/-- How `super().handle()` terminates inside the `try` block. -/
inductive Outcome
  | normal
  | connErr
  | otherErr
deriving DecidableEq, Repr

/-- Atomic actions of the handler, the overridden logging hooks, and the
reaper, as they touch `connection_lock`, the registry, and the socket. -/
inductive Act
  | acquireLock      -- enter `with connection_lock`
  | releaseLock      -- leave `with connection_lock`
  | logWarning
  | logDebug
  | logError
  | logInfo
  | send503          -- `self.send_error(503, "Too many connections from this IP")`
  | addConn          -- `active_connections[client_ip].add(thread_id)`
  | touch            -- `last_activity[client_ip] = time.time()`
  | serveBody        -- `super().handle()`
  | releaseConn      -- the `finally` block's registry-release step
  | writeStatusLine  -- first response byte of the 503 reaches the socket
deriving DecidableEq, Repr

/-- The action trace of `HealthAppHandler.handle`
(src/server.py lines 1023-1057).  `overLimit` is the admission test's
outcome (`len(ip_connections) >= MAX_CONNECTIONS_PER_IP`).  On the
over-limit path, `send_error(503, ...)` is invoked inside the
`with connection_lock:` block and the method returns (releasing the lock
as the `with` block exits).  On the admitted path the registry is mutated
under the lock, the lock is released, the body runs (any exception being
caught), and the `finally` block re-acquires the lock to run the release
step. -/
def handle_trace (overLimit : Bool) (oc : Outcome) : List Act :=
  if overLimit then
    [Act.acquireLock, Act.logWarning, Act.send503, Act.releaseLock]
  else
    [Act.acquireLock, Act.addConn, Act.touch, Act.logDebug, Act.releaseLock,
     Act.serveBody] ++
    (match oc with
     | Outcome.normal => []
     | Outcome.connErr => [Act.logDebug]
     | Outcome.otherErr => [Act.logError]) ++
    [Act.acquireLock, Act.releaseConn, Act.logDebug, Act.releaseLock]

/-- Number of `connection_lock` holds open after executing a prefix of a
trace (acquires minus releases, truncated at zero). -/
def locksHeld (tr : List Act) : ℕ :=
  tr.foldl
    (fun n a =>
      match a with
      | Act.acquireLock => n + 1
      | Act.releaseLock => n - 1
      | _ => n) 0

/-- `connection_lock` is held when the action at position `i` starts. -/
def heldAt (tr : List Act) (i : ℕ) : Prop := 0 < locksHeld (tr.take i)

instance (tr : List Act) (i : ℕ) : Decidable (heldAt tr i) := by
  unfold heldAt; infer_instance

/-- Scans a trace with the current number of holds on `connection_lock`;
returns `true` when some `acquireLock` runs while the lock is already
held.  `threading.Lock` is not reentrant, so for a single thread this is
the point where the thread blocks forever on itself. -/
def nestedAcquire : ℕ → List Act → Bool
  | _, [] => false
  | n, Act.acquireLock :: rest =>
      if 0 < n then true else nestedAcquire (n + 1) rest
  | n, Act.releaseLock :: rest => nestedAcquire (n - 1) rest
  | n, _ :: rest => nestedAcquire n rest

/-- Modelled from the Python standard library's documented behaviour of
`BaseHTTPRequestHandler.send_error` (which logs the error and then calls
`send_response`) and `send_response` (which calls `self.log_request(code)`
and only then writes the status line), combined with this repository's
override of `log_request` (src/server.py lines 1083-1098), which enters
`with connection_lock:` to update `last_activity` before logging.  The
resulting action sequence performed by `self.send_error(503, ...)`. -/
def send_error_503_acts : List Act :=
  [Act.logError,
   Act.acquireLock, Act.touch, Act.releaseLock, Act.logInfo,
   Act.writeStatusLine]

/-- The over-limit rejection path of `handle` with `send_error` expanded
into its constituent actions (src/server.py lines 1029-1034 with
`send_error_503_acts` inlined in place of the `send503` step). -/
def reject_trace_expanded : List Act :=
  [Act.acquireLock, Act.logWarning] ++ send_error_503_acts ++ [Act.releaseLock]

/-! ### The SSE subscriber hub (src/server.py lines 271-274, 1210-1259, 1538-1556)

Subscribers are `(client_ip, wfile)` pairs; the output stream `wfile` is
embedded as a numeric handle, and whether a given write on it raises is
supplied as a function `writeFails` from handles to `Bool`. -/

/-- The hub's shared state: the subscriber list `sse_clients`, the shared
`file_change_event` flag, and `last_file_change_time`
(src/server.py lines 272-275). -/
structure SSEState where
  sse_clients : List (String × ℕ)
  file_change_event : Bool
  last_file_change_time : ℕ
deriving DecidableEq, Repr

/-- The probe loop inside `notify_sse_clients`
(src/server.py lines 1545-1555): attempt a keepalive write to each
subscriber in order; a subscriber whose write raises is dropped, the rest
are kept.  Returns the surviving list and the handles written to. -/
def probe_clients (writeFails : ℕ → Bool) :
    List (String × ℕ) → List (String × ℕ) × List ℕ
  | [] => ([], [])
  | c :: rest =>
      let r := probe_clients writeFails rest
      if writeFails c.2 then r else (c :: r.1, c.2 :: r.2)

/-- `notify_sse_clients` (src/server.py lines 1538-1556): record the
change time, set the shared `file_change_event`, then, under `sse_lock`,
probe every subscriber and keep only those whose write succeeded.
Returns the new state and the handles successfully written to. -/
def notify_sse_clients (writeFails : ℕ → Bool) (now : ℕ) (st : SSEState) :
    SSEState × List ℕ :=
  let r := probe_clients writeFails st.sse_clients
  ({ sse_clients := r.1, file_change_event := true,
     last_file_change_time := now }, r.2)

/-- An SSE frame: the initial connected acknowledgment, a reload event
with its timestamp, or the comment-only keepalive. -/
inductive Frame
  | connected
  | reload (ts : ℕ)
  | keepalive
deriving DecidableEq, Repr

/-- One iteration of the streaming loop in `handle_sse_reload`
(src/server.py lines 1246-1259) acting on the shared `file_change_event`
flag.  `flag` is the flag's value when the iteration starts, `arrive`
whether some trigger sets it during the 30-second wait window, `writeOk`
whether the write to this subscriber's stream succeeds, and `now` the
timestamp used for a reload frame.  `file_change_event.wait(timeout=30)`
returns `true` iff the flag is or becomes set; on a successful reload
write the flag is cleared (`file_change_event.clear()`); a failed write
raises before the `clear()` line, leaving the flag as the wait left it.
Returns the flag's value after the iteration and the frame delivered, if
any. -/
def sse_iter (flag arrive writeOk : Bool) (now : ℕ) : Bool × Option Frame :=
  let waitResult := flag || arrive
  if waitResult then
    if writeOk then (false, some (Frame.reload now))
    else (flag || arrive, none)
  else
    (flag || arrive, if writeOk then some Frame.keepalive else none)

/-- Input to one iteration of the streaming loop: whether the wait saw the
event fire, the timestamp, and whether the write succeeds. -/
structure SSEIter where
  fired : Bool
  ts : ℕ
  writeOk : Bool
deriving DecidableEq, Repr

/-- The frames delivered by the streaming loop of `handle_sse_reload`
(src/server.py lines 1246-1259) for a run of iterations: a fired wait
delivers a reload frame, a timed-out wait delivers a keepalive, and a
failed write delivers nothing and breaks the loop. -/
def sse_frames : List SSEIter → List Frame
  | [] => []
  | it :: rest =>
      if it.writeOk then
        (if it.fired then Frame.reload it.ts else Frame.keepalive) ::
          sse_frames rest
      else []

/-- Observable actions of `handle_sse_reload` on the response stream and
the subscriber list. -/
inductive SSEAct
  | sendHeader (name value : String)
  | register    -- `sse_clients.append((client_ip, self.wfile))` under `sse_lock`
  | writeFrame (f : Frame)
  | unregister  -- the `finally` block filters this stream out of `sse_clients`
deriving DecidableEq, Repr

/-- The ordered action trace of `handle_sse_reload`
(src/server.py lines 1210-1278): the SSE headers are sent, the subscriber
is registered, the connected acknowledgment frame is written, then the
streaming loop delivers reload or keepalive frames until it breaks, and
the `finally` block removes the subscriber.  `connectOk` is whether the
initial connected write succeeds; on failure the handler removes the
subscriber and returns at once (src/server.py lines 1238-1243). -/
def handle_sse_reload (connectOk : Bool) (iters : List SSEIter) : List SSEAct :=
  [SSEAct.sendHeader "Content-Type" "text/event-stream",
   SSEAct.sendHeader "Cache-Control" "no-cache",
   SSEAct.sendHeader "Connection" "keep-alive",
   SSEAct.sendHeader "X-Accel-Buffering" "no",
   SSEAct.register] ++
  (if connectOk then
     SSEAct.writeFrame Frame.connected ::
       ((sse_frames iters).map SSEAct.writeFrame ++ [SSEAct.unregister])
   else [SSEAct.unregister])

/-! ### The file-change watcher (src/server.py lines 1558-1613)

Paths are `String`s; times are in milliseconds, so the 0.5-second debounce
window of the source is 500. -/

/-- `FileChangeHandler.__init__`'s ignore list (src/server.py lines 1567-1570). -/
def ignore_patterns : List String :=
  [".git", "__pycache__", ".pyc", ".log", "logs",
   ".DS_Store", "Thumbs.db", ".swp", ".tmp"]

/-- The watched extensions of `on_modified` (src/server.py line 1586). -/
def watched_extensions : List String := [".html", ".js", ".css", ".json", ".py"]

/-- Substring test on character lists, the embedding of Python's
`needle in haystack`. -/
def containsSub (needle : List Char) : List Char → Bool
  | [] => needle.isEmpty
  | c :: rest => needle.isPrefixOf (c :: rest) || containsSub needle rest

/-- Lower-cased character list of a string, the embedding of `s.lower()`. -/
def lowerStr (s : String) : List Char := s.data.map Char.toLower

/-- `FileChangeHandler.should_ignore` (src/server.py lines 1572-1575):
case-insensitive substring match of any ignore pattern in the path. -/
def should_ignore (path : String) : Bool :=
  ignore_patterns.any fun pat => containsSub (lowerStr pat) (lowerStr path)

/-- Suffix test, the embedding of `path.endswith(ext)`. -/
def pathEndsWith (path ext : String) : Bool := ext.data.isSuffixOf path.data

/-- The watcher's per-path debounce table `self.last_modified`
(src/server.py line 1565), in milliseconds. -/
structure FCState where
  last_modified : List (String × ℕ)
deriving DecidableEq, Repr

/-- A raw filesystem notification as delivered by the OS watcher. -/
structure FSEvent where
  is_directory : Bool
  src_path : String
deriving DecidableEq, Repr

/-- `FileChangeHandler.on_modified` (src/server.py lines 1577-1599):
ignore directories, ignored paths, and unwatched extensions; then
debounce — if this path produced an event less than 500 ms ago, suppress,
otherwise record the time and broadcast.  Returns the new debounce table
and whether `notify_sse_clients()` was called. -/
def on_modified (st : FCState) (event : FSEvent) (now : ℕ) : FCState × Bool :=
  if event.is_directory then (st, false)
  else if should_ignore event.src_path then (st, false)
  else if ¬ (watched_extensions.any fun ext => pathEndsWith event.src_path ext) then
    (st, false)
  else
    match dget? st.last_modified event.src_path with
    | some t =>
        if now - t < 500 then (st, false)
        else ({ last_modified := dset st.last_modified event.src_path now }, true)
    | none => ({ last_modified := dset st.last_modified event.src_path now }, true)

/-- `FileChangeHandler.on_created` (src/server.py lines 1601-1606):
broadcast unless the event is a directory or an ignored path; no
extension filter and no debounce. -/
def on_created (st : FCState) (event : FSEvent) (_now : ℕ) : FCState × Bool :=
  if event.is_directory || should_ignore event.src_path then (st, false)
  else (st, true)

/-- `FileChangeHandler.on_deleted` (src/server.py lines 1608-1613):
broadcast unless the event is a directory or an ignored path; no
extension filter and no debounce. -/
def on_deleted (st : FCState) (event : FSEvent) (_now : ℕ) : FCState × Bool :=
  if event.is_directory || should_ignore event.src_path then (st, false)
  else (st, true)

/-! ### Lemmas about the admission scenario -/

/-- Spec section 3 invariant: every tracked key's connection set is
non-empty (equivalently, a key has an entry iff it has a connection). -/
def RegistryInv (st : Registry) : Prop :=
  ∀ p ∈ st.active_connections, p.2 ≠ (∅ : Finset ℕ)

instance (st : Registry) : Decidable (RegistryInv st) := by
  unfold RegistryInv; infer_instance

theorem registryInv_handle_admission {st : Registry} (h : RegistryInv st)
    (ip : String) (tid now : ℕ) :
    RegistryInv (handle_admission st ip tid now).1 := by
  unfold handle_admission
  by_cases hc :
      MAX_CONNECTIONS_PER_IP ≤ ((dget? st.active_connections ip).getD ∅).card
  · simpa [hc] using h
  · simp only [hc, if_false]
    intro p hp
    rcases mem_dset hp with h₁ | h₁
    · rw [h₁]
      exact Finset.insert_ne_empty _ _
    · exact h p h₁

theorem registryInv_handle_release {st : Registry} (h : RegistryInv st)
    (ip : String) (tid : ℕ) :
    RegistryInv (handle_release st ip tid) := by
  unfold handle_release
  cases hm : dget? st.active_connections ip with
  | none => exact h
  | some s =>
      by_cases he : s.erase tid = ∅
      · simp only [he, if_true]
        intro p hp
        exact h p (mem_ddel hp)
      · simp only [he, if_false]
        intro p hp
        rcases mem_dset hp with h₁ | h₁
        · rw [h₁]; exact he
        · exact h p h₁

theorem registryInv_cleanup_step {st : Registry} (h : RegistryInv st)
    (now : ℕ) (e : String × ℕ) : RegistryInv (cleanup_step now st e) := by
  unfold cleanup_step
  by_cases hc : CONNECTION_TIMEOUT < now - e.2
  · simp only [hc, if_true]
    intro p hp
    exact h p (mem_ddel hp)
  · simpa [hc] using h

theorem registryInv_cleanup_fold (now : ℕ) :
    ∀ (l : List (String × ℕ)) (st : Registry), RegistryInv st →
      RegistryInv (l.foldl (cleanup_step now) st)
  | [], _, h => h
  | e :: rest, st, h =>
      registryInv_cleanup_fold now rest (cleanup_step now st e)
        (registryInv_cleanup_step h now e)

/-- After the `finally` release step, the released key's entry is the
erased set when connections remain, and is gone entirely otherwise. -/
theorem handle_release_lookup {st : Registry} {ip : String} {s : Finset ℕ}
    (hm : dget? st.active_connections ip = some s) (tid : ℕ) :
    dget? (handle_release st ip tid).active_connections ip
      = if s.erase tid = ∅ then none else some (s.erase tid) := by
  unfold handle_release
  rw [hm]
  by_cases he : s.erase tid = ∅
  · simp only [he, if_true]
    exact dget?_ddel_self _ _
  · simp only [he, if_false]
    exact dget?_dset_self _ _ _

/-- Spec sections 3 and 8 (src/server.py lines 1029-1039, 1050-1057,
1628-1639): admission, release, and the reaper's sweep all preserve the
invariant that a tracked key's connection set is non-empty, the release
step always removes the released handle from its key's set, and when that
handle was the key's last one the key's entry is deleted outright. -/
theorem registry_emptiness_invariant (st : Registry) (ip : String)
    (tid now : ℕ) (s : Finset ℕ) :
    (RegistryInv st →
       RegistryInv (handle_admission st ip tid now).1 ∧
       RegistryInv (handle_release st ip tid) ∧
       RegistryInv (cleanup_inactive_connections st now)) ∧
    (dget? st.active_connections ip = some s →
       dget? (handle_release st ip tid).active_connections ip
         = (if s.erase tid = ∅ then none else some (s.erase tid)) ∧
       ∀ s', dget? (handle_release st ip tid).active_connections ip = some s' →
         tid ∉ s') := by
  constructor
  · intro h
    exact ⟨registryInv_handle_admission h ip tid now,
           registryInv_handle_release h ip tid,
           registryInv_cleanup_fold now st.last_activity st h⟩
  · intro hm
    refine ⟨handle_release_lookup hm tid, ?_⟩
    intro s' hs'
    rw [handle_release_lookup hm tid] at hs'
    by_cases he : s.erase tid = ∅
    · simp [he] at hs'
    · simp only [he, if_false, Option.some.injEq] at hs'
      rw [← hs']
      exact Finset.not_mem_erase _ _

/-- Witness for `registry_emptiness_invariant`: on a registry holding one
key with the two connections 3 and 4, all three operations preserve the
invariant, and releasing 3 leaves entry with set 4 while releasing the
last handle of a singleton key deletes the entry. -/
theorem registry_emptiness_invariant_witness :
    (RegistryInv (handle_admission ⟨[("h", {3, 4})], [("h", 0)]⟩ "h" 3 1).1 ∧
     RegistryInv (handle_release ⟨[("h", {3, 4})], [("h", 0)]⟩ "h" 3) ∧
     RegistryInv (cleanup_inactive_connections ⟨[("h", {3, 4})], [("h", 0)]⟩ 1)) ∧
    (dget? (handle_release ⟨[("h", {3, 4})], [("h", 0)]⟩ "h" 3).active_connections "h"
       = (if ({3, 4} : Finset ℕ).erase 3 = ∅ then none
          else some (({3, 4} : Finset ℕ).erase 3)) ∧
     ∀ s', dget? (handle_release ⟨[("h", {3, 4})], [("h", 0)]⟩ "h" 3).active_connections "h"
         = some s' → 3 ∉ s') := by
  exact ⟨(registry_emptiness_invariant ⟨[("h", {3, 4})], [("h", 0)]⟩ "h" 3 1 {3, 4}).1
           (by decide),
         (registry_emptiness_invariant ⟨[("h", {3, 4})], [("h", 0)]⟩ "h" 3 1 {3, 4}).2
           (by decide)⟩

/-! ### Lemmas about the idle reaper's sweep -/

theorem dget?_ddel_none {α : Type} {d : List (String × α)} {k : String}
    (h : dget? d k = none) (k' : String) : dget? (ddel d k') k = none := by
  by_cases hk : k' = k
  · subst hk; exact dget?_ddel_self _ _
  · rw [dget?_ddel_ne _ _ _ hk]; exact h

theorem cleanup_fold_not_mem (now : ℕ) :
    ∀ (l : List (String × ℕ)) (st : Registry) (k : String),
      k ∉ l.map Prod.fst →
      dget? (l.foldl (cleanup_step now) st).last_activity k
          = dget? st.last_activity k ∧
      dget? (l.foldl (cleanup_step now) st).active_connections k
          = dget? st.active_connections k := by
  intro l
  induction l with
  | nil => intro st k _; exact ⟨rfl, rfl⟩
  | cons e rest ih =>
      intro st k hk
      have hke : e.1 ≠ k := by
        intro h; exact hk (by simp [h.symm])
      have hkr : k ∉ rest.map Prod.fst := fun h => hk (by simp [h])
      have hstep :
          dget? (cleanup_step now st e).last_activity k
              = dget? st.last_activity k ∧
          dget? (cleanup_step now st e).active_connections k
              = dget? st.active_connections k := by
        unfold cleanup_step
        by_cases hc : CONNECTION_TIMEOUT < now - e.2
        · simp only [hc, if_true]
          exact ⟨dget?_ddel_ne _ _ _ hke, dget?_ddel_ne _ _ _ hke⟩
        · simp [hc]
      have := ih (cleanup_step now st e) k hkr
      simp only [List.foldl_cons]
      exact ⟨this.1.trans hstep.1, this.2.trans hstep.2⟩

theorem cleanup_fold_none_persists (now : ℕ) :
    ∀ (l : List (String × ℕ)) (st : Registry) (k : String),
      dget? st.last_activity k = none →
      dget? st.active_connections k = none →
      dget? (l.foldl (cleanup_step now) st).last_activity k = none ∧
      dget? (l.foldl (cleanup_step now) st).active_connections k = none := by
  intro l
  induction l with
  | nil => intro st k h₁ h₂; exact ⟨h₁, h₂⟩
  | cons e rest ih =>
      intro st k h₁ h₂
      have hstep :
          dget? (cleanup_step now st e).last_activity k = none ∧
          dget? (cleanup_step now st e).active_connections k = none := by
        unfold cleanup_step
        by_cases hc : CONNECTION_TIMEOUT < now - e.2
        · simp only [hc, if_true]
          exact ⟨dget?_ddel_none h₁ _, dget?_ddel_none h₂ _⟩
        · simp [hc, h₁, h₂]
      simp only [List.foldl_cons]
      exact ih (cleanup_step now st e) k hstep.1 hstep.2

theorem cleanup_fold_stale_removed (now : ℕ) :
    ∀ (l : List (String × ℕ)) (st : Registry) (k : String) (t : ℕ),
      (l.map Prod.fst).Nodup → (k, t) ∈ l → CONNECTION_TIMEOUT < now - t →
      dget? (l.foldl (cleanup_step now) st).last_activity k = none ∧
      dget? (l.foldl (cleanup_step now) st).active_connections k = none := by
  intro l
  induction l with
  | nil => intro st k t _ hm _; simp at hm
  | cons e rest ih =>
      intro st k t hnd hm hstale
      rcases List.mem_cons.mp hm with he | hr
      · have hk : e.1 = k := by rw [← he]
        have ht : e.2 = t := by rw [← he]
        simp only [List.foldl_cons]
        apply cleanup_fold_none_persists
        · unfold cleanup_step
          rw [ht]
          simp only [hstale, if_true, hk]
          exact dget?_ddel_self _ _
        · unfold cleanup_step
          rw [ht]
          simp only [hstale, if_true, hk]
          exact dget?_ddel_self _ _
      · have hnd' : (rest.map Prod.fst).Nodup := (List.nodup_cons.mp hnd).2
        simp only [List.foldl_cons]
        exact ih (cleanup_step now st e) k t hnd' hr hstale

theorem cleanup_fold_fresh_kept (now : ℕ) :
    ∀ (l : List (String × ℕ)) (st : Registry) (k : String) (t : ℕ),
      (l.map Prod.fst).Nodup → (k, t) ∈ l → ¬ CONNECTION_TIMEOUT < now - t →
      dget? (l.foldl (cleanup_step now) st).last_activity k
          = dget? st.last_activity k ∧
      dget? (l.foldl (cleanup_step now) st).active_connections k
          = dget? st.active_connections k := by
  intro l
  induction l with
  | nil => intro st k t _ hm _; simp at hm
  | cons e rest ih =>
      intro st k t hnd hm hfresh
      rcases List.mem_cons.mp hm with he | hr
      · have hk : e.1 = k := by rw [← he]
        have ht : e.2 = t := by rw [← he]
        have hkr : k ∉ rest.map Prod.fst := by
          have := (List.nodup_cons.mp hnd).1
          rw [hk] at this
          exact this
        simp only [List.foldl_cons]
        have hstep : cleanup_step now st e = st := by
          unfold cleanup_step
          rw [ht]
          simp [hfresh]
        rw [hstep]
        exact cleanup_fold_not_mem now rest st k hkr
      · have hnd' : (rest.map Prod.fst).Nodup := (List.nodup_cons.mp hnd).2
        have hke : e.1 ≠ k := by
          intro h
          have hmem : k ∈ rest.map Prod.fst := List.mem_map.mpr ⟨(k, t), hr, rfl⟩
          have hnotmem : e.1 ∉ rest.map Prod.fst := (List.nodup_cons.mp hnd).1
          rw [h] at hnotmem
          exact hnotmem hmem
        have hstep :
            dget? (cleanup_step now st e).last_activity k
                = dget? st.last_activity k ∧
            dget? (cleanup_step now st e).active_connections k
                = dget? st.active_connections k := by
          unfold cleanup_step
          by_cases hc : CONNECTION_TIMEOUT < now - e.2
          · simp only [hc, if_true]
            exact ⟨dget?_ddel_ne _ _ _ hke, dget?_ddel_ne _ _ _ hke⟩
          · simp [hc]
        simp only [List.foldl_cons]
        have := ih (cleanup_step now st e) k t hnd' hr hfresh
        exact ⟨this.1.trans hstep.1, this.2.trans hstep.2⟩

/-- Spec sections 4.2 and 8 (src/server.py lines 1620-1644): a sweep of
the reaper removes a key's entry from both registry dicts exactly when
that key's recorded activity is stale for strictly more than
`CONNECTION_TIMEOUT` at sweep time; a key within the window keeps its
activity record and its connection set untouched. -/
theorem reaper_timeout_boundary (st : Registry) (now : ℕ) (k : String) (t : ℕ)
    (hnd : NodupKeys st.last_activity)
    (hm : dget? st.last_activity k = some t) :
    (CONNECTION_TIMEOUT < now - t →
       dget? (cleanup_inactive_connections st now).last_activity k = none ∧
       dget? (cleanup_inactive_connections st now).active_connections k = none) ∧
    (¬ CONNECTION_TIMEOUT < now - t →
       dget? (cleanup_inactive_connections st now).last_activity k = some t ∧
       dget? (cleanup_inactive_connections st now).active_connections k
         = dget? st.active_connections k) := by
  have hmem : (k, t) ∈ st.last_activity := dget?_some_mem hm
  constructor
  · intro hstale
    exact cleanup_fold_stale_removed now st.last_activity st k t hnd hmem hstale
  · intro hfresh
    have := cleanup_fold_fresh_kept now st.last_activity st k t hnd hmem hfresh
    exact ⟨this.1.trans hm, this.2⟩

/-- Witness for `reaper_timeout_boundary` at the spec's boundary: with the
default 300-second timeout and last activity at time 0, a sweep at
`now = 301` (stale for timeout + 1) removes the key from both dicts, and
a sweep at `now = 299` (stale for timeout − 1) keeps it untouched. -/
theorem reaper_timeout_boundary_witness :
    (dget? (cleanup_inactive_connections ⟨[("c", {8})], [("c", 0)]⟩ 301).last_activity "c"
       = none ∧
     dget? (cleanup_inactive_connections ⟨[("c", {8})], [("c", 0)]⟩ 301).active_connections "c"
       = none) ∧
    (dget? (cleanup_inactive_connections ⟨[("c", {8})], [("c", 0)]⟩ 299).last_activity "c"
       = some 0 ∧
     dget? (cleanup_inactive_connections ⟨[("c", {8})], [("c", 0)]⟩ 299).active_connections "c"
       = dget? (⟨[("c", {8})], [("c", 0)]⟩ : Registry).active_connections "c") := by
  constructor
  · exact (reaper_timeout_boundary ⟨[("c", {8})], [("c", 0)]⟩ 301 "c" 0
      (by decide) (by decide)).1 (by decide)
  · exact (reaper_timeout_boundary ⟨[("c", {8})], [("c", 0)]⟩ 299 "c" 0
      (by decide) (by decide)).2 (by decide)

/-! ### Lemmas about the broadcast pass -/

theorem probe_clients_eq (writeFails : ℕ → Bool) :
    ∀ l : List (String × ℕ),
      probe_clients writeFails l
        = (l.filter (fun c => ! writeFails c.2),
           (l.filter (fun c => ! writeFails c.2)).map Prod.snd) := by
  intro l
  induction l with
  | nil => rfl
  | cons c rest ih =>
      by_cases hc : writeFails c.2
      · simp [probe_clients, hc, ih]
      · simp [probe_clients, hc, ih]

/-- Spec section 5 failure isolation (src/server.py lines 1538-1556): a
broadcast pass in which one subscriber's write raises still writes to
every subscriber whose write succeeds, only touches live streams, and
drops the failed subscriber from the set within the same pass, so it is
absent from the set used by the next broadcast. -/
theorem broadcast_failure_isolation (writeFails : ℕ → Bool) (now : ℕ)
    (st : SSEState) (c : String × ℕ)
    (_hc : c ∈ st.sse_clients) (hf : writeFails c.2 = true) :
    c ∉ (notify_sse_clients writeFails now st).1.sse_clients ∧
    (∀ d ∈ st.sse_clients, writeFails d.2 = false →
       d.2 ∈ (notify_sse_clients writeFails now st).2) ∧
    (∀ h ∈ (notify_sse_clients writeFails now st).2, writeFails h = false) := by
  refine ⟨?_, ?_, ?_⟩
  · intro hmem
    simp only [notify_sse_clients, probe_clients_eq] at hmem
    have := (List.mem_filter.mp hmem).2
    rw [hf] at this
    simp at this
  · intro d hd hdok
    simp only [notify_sse_clients, probe_clients_eq]
    exact List.mem_map.mpr ⟨d, List.mem_filter.mpr ⟨hd, by simp [hdok]⟩, rfl⟩
  · intro h hh
    simp only [notify_sse_clients, probe_clients_eq] at hh
    rcases List.mem_map.mp hh with ⟨d, hd, hds⟩
    have := (List.mem_filter.mp hd).2
    rw [← hds]
    simpa using this

/-- Witness for `broadcast_failure_isolation`: with subscribers on handles
1 and 2 where writes to handle 1 fail, subscriber 1 is gone after the
pass, handle 2 still receives the write, and only live handles were
written. -/
theorem broadcast_failure_isolation_witness :
    ("a", 1) ∉ (notify_sse_clients (fun h => h == 1) 9
        ⟨[("a", 1), ("b", 2)], false, 0⟩).1.sse_clients ∧
    (∀ d ∈ [("a", 1), ("b", 2)], (fun h => h == 1) d.2 = false →
       d.2 ∈ (notify_sse_clients (fun h => h == 1) 9
         ⟨[("a", 1), ("b", 2)], false, 0⟩).2) ∧
    (∀ h ∈ (notify_sse_clients (fun h => h == 1) 9
        ⟨[("a", 1), ("b", 2)], false, 0⟩).2, (fun h => h == 1) h = false) := by
  exact broadcast_failure_isolation (fun h => h == 1) 9
    ⟨[("a", 1), ("b", 2)], false, 0⟩ ("a", 1) (by decide) (by decide)

/-- Spec section 8 (src/server.py lines 1538-1556): a broadcast with zero
registered subscribers completes as a no-op — it delivers nothing and the
subscriber set stays empty. -/
theorem broadcast_no_subscribers (writeFails : ℕ → Bool) (now : ℕ)
    (st : SSEState) (h : st.sse_clients = []) :
    (notify_sse_clients writeFails now st).1.sse_clients = [] ∧
    (notify_sse_clients writeFails now st).2 = [] := by
  simp [notify_sse_clients, h, probe_clients]

/-- Witness for `broadcast_no_subscribers` on the initial hub state. -/
theorem broadcast_no_subscribers_witness :
    (notify_sse_clients (fun _ => false) 5 ⟨[], false, 0⟩).1.sse_clients = [] ∧
    (notify_sse_clients (fun _ => false) 5 ⟨[], false, 0⟩).2 = [] :=
  broadcast_no_subscribers (fun _ => false) 5 ⟨[], false, 0⟩ rfl

/-- Implicit shared-event-flag protocol between `notify_sse_clients` and
the streaming loop of `handle_sse_reload` (src/server.py lines 1245-1259,
1538-1542): the broadcast trigger sets the one shared `file_change_event`
flag; with the flag set, the first subscriber iteration that completes its
wait delivers a reload frame and clears the flag, so a second subscriber's
iteration on the resulting flag sees no event and delivers only a
keepalive; and a flag left set with nobody waiting is observed as a
reload by the next iteration that runs. -/
theorem shared_event_flag_protocol (writeFails : ℕ → Bool) (now ts1 ts2 : ℕ)
    (st : SSEState) (arrive : Bool) :
    (notify_sse_clients writeFails now st).1.file_change_event = true ∧
    sse_iter true arrive true ts1 = (false, some (Frame.reload ts1)) ∧
    sse_iter (sse_iter true arrive true ts1).1 false true ts2
      = (false, some Frame.keepalive) ∧
    sse_iter true false true ts2 = (false, some (Frame.reload ts2)) := by
  refine ⟨rfl, ?_, ?_, rfl⟩
  · cases arrive <;> rfl
  · cases arrive <;> rfl

/-! ### The subscribe endpoint's stream shape -/

/-- Spec sections 4.4 and 6 (src/server.py lines 1210-1259): the
subscribe endpoint's trace carries the no-cache directive, registers the
subscriber and then immediately writes the connected acknowledgment frame
as the first frame on the stream, before any loop iteration; the frames
delivered by the streaming loop afterwards are exactly reload or
keepalive frames; and an iteration whose 30-second wait times out without
an event writes a keepalive, while one whose wait fires writes a reload. -/
theorem sse_stream_contract (connectOk : Bool) (iters : List SSEIter) :
    SSEAct.sendHeader "Cache-Control" "no-cache"
        ∈ handle_sse_reload connectOk iters ∧
    (connectOk = true →
       (handle_sse_reload connectOk iters).get? 4 = some SSEAct.register ∧
       (handle_sse_reload connectOk iters).get? 5
         = some (SSEAct.writeFrame Frame.connected) ∧
       ∀ k < 5, ∀ f, (handle_sse_reload connectOk iters).get? k
         ≠ some (SSEAct.writeFrame f)) ∧
    (∀ f ∈ sse_frames iters, f = Frame.keepalive ∨ ∃ ts, f = Frame.reload ts) ∧
    (∀ (it : SSEIter) (rest : List SSEIter), it.writeOk = true →
       sse_frames (it :: rest)
         = (if it.fired then Frame.reload it.ts else Frame.keepalive)
             :: sse_frames rest) := by
  refine ⟨?_, ?_, ?_, ?_⟩
  · cases connectOk <;> simp [handle_sse_reload]
  · intro hc
    subst hc
    refine ⟨rfl, rfl, ?_⟩
    intro k hk f
    interval_cases k <;> simp [handle_sse_reload]
  · intro f hf
    induction iters with
    | nil => simp [sse_frames] at hf
    | cons it rest ih =>
        by_cases hw : it.writeOk
        · rw [sse_frames, if_pos hw] at hf
          rcases List.mem_cons.mp hf with h | h
          · by_cases hfi : it.fired
            · rw [if_pos hfi] at h
              exact Or.inr ⟨it.ts, h⟩
            · rw [if_neg hfi] at h
              exact Or.inl h
          · exact ih h
        · rw [sse_frames, if_neg hw] at hf
          simp at hf
  · intro it rest hw
    simp [sse_frames, hw]

/-- Witness for `sse_stream_contract`: a successful connect followed by
one fired iteration and one timed-out iteration. -/
theorem sse_stream_contract_witness :
    SSEAct.sendHeader "Cache-Control" "no-cache"
        ∈ handle_sse_reload true [⟨true, 7, true⟩, ⟨false, 0, true⟩] ∧
    (handle_sse_reload true [⟨true, 7, true⟩, ⟨false, 0, true⟩]).get? 4
        = some SSEAct.register ∧
    (handle_sse_reload true [⟨true, 7, true⟩, ⟨false, 0, true⟩]).get? 5
        = some (SSEAct.writeFrame Frame.connected) ∧
    (Frame.keepalive = Frame.keepalive ∨
       ∃ ts, Frame.keepalive = Frame.reload ts) ∧
    sse_frames [(⟨false, 0, true⟩ : SSEIter)] = [Frame.keepalive] := by
  have h := sse_stream_contract true [⟨true, 7, true⟩, ⟨false, 0, true⟩]
  have h2 := h.2.1 rfl
  refine ⟨h.1, h2.1, h2.2.1, ?_, ?_⟩
  · exact h.2.2.1 Frame.keepalive (by decide)
  · have h4 := (sse_stream_contract true []).2.2.2 ⟨false, 0, true⟩ [] rfl
    simpa using h4

/-! ### The rejection path's interaction with the registry lock -/

/-- Violation of spec section 4.1's rule that no operation blocks on I/O
while holding the registry lock (src/server.py lines 1029-1034 with
1083-1098): on the over-limit path, the 503 rejection write
(`self.send_error(503, ...)`) is performed while `connection_lock` is
held, and once `send_error` is expanded, the logging it triggers
re-acquires `connection_lock` while it is already held — on the
non-reentrant `threading.Lock` this nested acquire blocks the thread
against itself — and the first byte of the 503 status line lies beyond
that nested acquire in program order. -/
theorem rejection_io_under_lock :
    ((handle_trace true Outcome.normal).get? 2 = some Act.send503 ∧
     heldAt (handle_trace true Outcome.normal) 2) ∧
    (reject_trace_expanded.get? 3 = some Act.acquireLock ∧
     heldAt reject_trace_expanded 3) ∧
    nestedAcquire 0 reject_trace_expanded = true ∧
    reject_trace_expanded.get? 7 = some Act.writeStatusLine := by
  decide

/-! ### The release step runs exactly once per exit path -/

/-- Spec section 4.5 (src/server.py lines 1041-1057): for each of the
three exit paths of `super().handle()` — normal completion, a client
disconnect exception, any other exception — the admitted trace performs
the `finally` registry-release step exactly once, while the rejected
trace performs no release and no registry mutation at all. -/
theorem release_exactly_once (oc : Outcome) :
    (handle_trace false oc).count Act.releaseConn = 1 ∧
    (handle_trace true oc).count Act.releaseConn = 0 ∧
    (handle_trace true oc).count Act.addConn = 0 ∧
    (handle_trace true oc).count Act.touch = 0 := by
  cases oc <;> refine ⟨by decide, by decide, by decide, by decide⟩

/-! ### The watcher's filters and debounce -/

/-- Counterexample to the claim that the extension filter and the 500 ms
debounce apply to created events: two non-directory `on_created`
notifications for the same non-ignored path, 100 ms apart, each trigger a
broadcast (src/server.py lines 1601-1606 have no debounce and no
extension check). -/
theorem watcher_created_not_debounced :
    (on_created ⟨[]⟩ ⟨false, "a.html"⟩ 0).2 = true ∧
    (on_created (on_created ⟨[]⟩ ⟨false, "a.html"⟩ 0).1 ⟨false, "a.html"⟩ 100).2
      = true := by
  decide

/-- Amended watcher contract (src/server.py lines 1577-1613): for
`modified` notifications the full pipeline applies — two for the same
path within 500 ms yield at most one broadcast, and two more than 500 ms
apart (the first hitting a fresh debounce entry) yield two broadcasts;
the ignore-list filter applies to all three reasons; but `created` and
`deleted` notifications skip the extension filter and the debounce: any
non-directory, non-ignored path broadcasts unconditionally. -/
theorem watcher_debounce_amended (st : FCState) (e : FSEvent) (n1 n2 n : ℕ) :
    (n1 ≤ n2 → n2 - n1 < 500 →
       ¬((on_modified st e n1).2 = true ∧
         (on_modified (on_modified st e n1).1 e n2).2 = true)) ∧
    (e.is_directory = false → should_ignore e.src_path = false →
     (watched_extensions.any fun ext => pathEndsWith e.src_path ext) = true →
     dget? st.last_modified e.src_path = none → 500 < n2 - n1 →
       (on_modified st e n1).2 = true ∧
       (on_modified (on_modified st e n1).1 e n2).2 = true) ∧
    (should_ignore e.src_path = true →
       on_modified st e n = (st, false) ∧ on_created st e n = (st, false) ∧
       on_deleted st e n = (st, false)) ∧
    (e.is_directory = false → should_ignore e.src_path = false →
       on_created st e n = (st, true) ∧ on_deleted st e n = (st, true)) := by
  refine ⟨?_, ?_, ?_, ?_⟩
  · rintro h12 hwin ⟨hb1, hb2⟩
    by_cases hd : e.is_directory
    · simp [on_modified, hd] at hb1
    by_cases hi : should_ignore e.src_path
    · simp [on_modified, hd, hi] at hb1
    by_cases hx : (watched_extensions.any fun ext => pathEndsWith e.src_path ext)
        = true
    case neg =>
      rw [Bool.not_eq_true] at hx
      simp [on_modified, hd, hi, hx] at hb1
    cases hm : dget? st.last_modified e.src_path with
    | some t =>
        by_cases hdb : n1 - t < 500
        · simp [on_modified, hd, hi, hx, hm, hdb] at hb1
        · have hst1 : (on_modified st e n1).1
              = ⟨dset st.last_modified e.src_path n1⟩ := by
            simp [on_modified, hd, hi, hx, hm, hdb]
          rw [hst1] at hb2
          simp [on_modified, hd, hi, hx, dget?_dset_self, hwin] at hb2
    | none =>
        have hst1 : (on_modified st e n1).1
            = ⟨dset st.last_modified e.src_path n1⟩ := by
          simp [on_modified, hd, hi, hx, hm]
        rw [hst1] at hb2
        simp [on_modified, hd, hi, hx, dget?_dset_self, hwin] at hb2
  · intro hd hi hx hm hgap
    have hb1 : on_modified st e n1 = (⟨dset st.last_modified e.src_path n1⟩, true) := by
      simp [on_modified, hd, hi, hx, hm]
    refine ⟨by rw [hb1], ?_⟩
    rw [hb1]
    have hnw : ¬ (n2 - n1 < 500) := by omega
    simp [on_modified, hd, hi, hx, dget?_dset_self, hnw]
  · intro hi
    refine ⟨?_, ?_, ?_⟩
    · by_cases hd : e.is_directory <;> simp [on_modified, hd, hi]
    · simp [on_created, hi]
    · simp [on_deleted, hi]
  · intro hd hi
    exact ⟨by simp [on_created, hd, hi], by simp [on_deleted, hd, hi]⟩

/-- Witness for `watcher_debounce_amended`: two `modified` events on
`a.html` 100 ms apart yield at most one broadcast and 501 ms apart yield
two; any notification under `.git` is filtered for all three reasons; a
created or deleted `notes.txt` (no watched extension) still broadcasts. -/
theorem watcher_debounce_amended_witness :
    (¬((on_modified ⟨[]⟩ ⟨false, "a.html"⟩ 0).2 = true ∧
       (on_modified (on_modified ⟨[]⟩ ⟨false, "a.html"⟩ 0).1
          ⟨false, "a.html"⟩ 100).2 = true)) ∧
    ((on_modified ⟨[]⟩ ⟨false, "a.html"⟩ 0).2 = true ∧
     (on_modified (on_modified ⟨[]⟩ ⟨false, "a.html"⟩ 0).1
        ⟨false, "a.html"⟩ 501).2 = true) ∧
    (on_modified ⟨[]⟩ ⟨false, "x/.git/a.html"⟩ 0 = (⟨[]⟩, false) ∧
     on_created ⟨[]⟩ ⟨false, "x/.git/a.html"⟩ 0 = (⟨[]⟩, false) ∧
     on_deleted ⟨[]⟩ ⟨false, "x/.git/a.html"⟩ 0 = (⟨[]⟩, false)) ∧
    (on_created ⟨[]⟩ ⟨false, "notes.txt"⟩ 0 = (⟨[]⟩, true) ∧
     on_deleted ⟨[]⟩ ⟨false, "notes.txt"⟩ 0 = (⟨[]⟩, true)) := by
  refine ⟨?_, ?_, ?_, ?_⟩
  · exact (watcher_debounce_amended ⟨[]⟩ ⟨false, "a.html"⟩ 0 100 0).1
      (by decide) (by decide)
  · exact (watcher_debounce_amended ⟨[]⟩ ⟨false, "a.html"⟩ 0 501 0).2.1
      (by decide) (by decide) (by decide) (by decide) (by decide)
  · exact (watcher_debounce_amended ⟨[]⟩ ⟨false, "x/.git/a.html"⟩ 0 0 0).2.2.1
      (by decide)
  · exact (watcher_debounce_amended ⟨[]⟩ ⟨false, "notes.txt"⟩ 0 0 0).2.2.2
      (by decide) (by decide)

end HealthApp
